import Mathlib

/-!
Verification of the outlier-detection and removal policy of the DSML
repository (`src/src/processor.py`, class `DataProcessor`).

The embedding models a pandas DataFrame as an ordered list of columns,
each carrying a dtype flag (`numeric`) and a list of cells; a cell is
`Option ℚ`, where `none` stands for a missing value (NaN).  All cell
arithmetic is exact rational arithmetic.

Two encoding notes, both forced by IEEE/NumPy semantics of the source:

* `scipy.stats.zscore` divides by the population standard deviation
  `σ = √variance`, which is irrational in general.  Every use of a
  z-score in the source is a comparison `|z| < t` or `|z| > t`; for
  `σ > 0` these are equivalent to `(x − μ)² < t²·σ²` (resp. `>`) when
  `t ≥ 0`, and are settled by the sign of `t` alone when `t < 0`.
  The defs `zAbsLT` / `zAbsGT` / `zAbsLE` encode exactly that, so the
  whole development stays in decidable ℚ arithmetic.

* NaN comparisons are always false.  `scipy.stats.zscore` runs with its
  default `nan_policy='propagate'`: one missing value makes every
  z-score of the column NaN (mean and std are NaN), and a zero variance
  makes every z-score NaN (0/0).  Both cases therefore yield `false`
  for `|z| < t` and for `|z| > t`; the defs below carry these cases
  explicitly (`colHasMissing` branch, `v = 0` branch).
-/

/-- A cell of a numeric column: `none` is a missing value (NaN). -/
abbrev Value := Option ℚ

/-- One DataFrame column: its name, whether `select_dtypes(include="number")`
picks it, and its cells in row order. -/
structure Column where
  name : String
  numeric : Bool
  values : List Value
  deriving DecidableEq, Repr

/-- A DataFrame: ordered list of columns; rows are positions inside the
column value lists. -/
structure Dataset where
  cols : List Column
  deriving DecidableEq, Repr

/-- Typed outcome of an operation that can fail (a raised Python exception). -/
inductive OutlierError where
  | columnNotFound
  deriving DecidableEq, Repr

/-- Number of rows: length of the first column (0 for a column-less frame). -/
def nrows (d : Dataset) : ℕ :=
  match d.cols with
  | [] => 0
  | c :: _ => c.values.length

/-- All rows share the same column set: every column has `nrows d` cells. -/
def Wellformed (d : Dataset) : Prop :=
  ∀ c ∈ d.cols, c.values.length = nrows d

instance : DecidablePred Wellformed := fun d => by
  unfold Wellformed; infer_instance

/-- `df.select_dtypes(include="number")`: the numeric columns, in order. -/
def numericCols (d : Dataset) : List Column :=
  d.cols.filter (fun c => c.numeric)

/-- `df[column]` lookup: first column with the given name, if any. -/
def getCol (d : Dataset) (col : String) : Option Column :=
  d.cols.find? (fun c => c.name == col)

/-- The non-missing cells of a column, in row order (`series.dropna()`). -/
def colVals (vs : List Value) : List ℚ :=
  vs.reduceOption

/-- Whether a column contains a missing value. -/
def colHasMissing (vs : List Value) : Bool :=
  vs.any (fun o => o.isNone)

/-- Mean of a list of rationals (0 for the empty list, never reached by the
operations below on nonempty data). -/
def popMean (l : List ℚ) : ℚ :=
  l.sum / l.length

/-- Population variance (`ddof=0`, the scipy `zscore` default). -/
def popVar (l : List ℚ) : ℚ :=
  (l.map (fun x => (x - popMean l) ^ 2)).sum / l.length

/-- `|z| > t` for `z = (x − μ)/√v`, in exact arithmetic.  `v = 0` is the
NaN case (scipy 0/0): every comparison with NaN is false. -/
def zAbsGT (x mu v t : ℚ) : Bool :=
  if v = 0 then false
  else if t < 0 then true
  else decide (t ^ 2 * v < (x - mu) ^ 2)

/-- `|z| < t` for `z = (x − μ)/√v`, in exact arithmetic; `v = 0` is NaN. -/
def zAbsLT (x mu v t : ℚ) : Bool :=
  if v = 0 then false
  else if t ≤ 0 then false
  else decide ((x - mu) ^ 2 < t ^ 2 * v)

/-- `|z| ≤ t` for `z = (x − μ)/√v`, in exact arithmetic; `v = 0` is NaN.
Used only to state the spec's notion of a row "within threshold". -/
def zAbsLE (x mu v t : ℚ) : Bool :=
  if v = 0 then false
  else if t < 0 then false
  else decide ((x - mu) ^ 2 ≤ t ^ 2 * v)

/-- Per-column outlier flags of `check_outliers` (processor.py:380-395):
`z_scores = numeric_df.apply(zscore)` with NaN propagation, then
`is_outlier = z_scores.abs() > z_thresh`.  A missing value anywhere in the
column makes all its z-scores NaN, hence no flag. -/
def zFlagCol (vs : List Value) (t : ℚ) : List Bool :=
  if colHasMissing vs then vs.map (fun _ => false)
  else
    vs.map (fun o =>
      match o with
      | none => false
      | some x => zAbsGT x (popMean (colVals vs)) (popVar (colVals vs)) t)

/-- Per-column keep bits of `remove_outliers_zscore` (processor.py:417-423):
`(z_scores.abs() < z_thresh)`, NaN comparisons false. -/
def zKeepCol (vs : List Value) (t : ℚ) : List Bool :=
  if colHasMissing vs then vs.map (fun _ => false)
  else
    vs.map (fun o =>
      match o with
      | none => false
      | some x => zAbsLT x (popMean (colVals vs)) (popVar (colVals vs)) t)

/-- Per-column "within threshold" bits `|z| ≤ t`, the spec's wording for a
row that Z-score removal must retain.  Same NaN conventions as the code. -/
def zWithinCol (vs : List Value) (t : ℚ) : List Bool :=
  if colHasMissing vs then vs.map (fun _ => false)
  else
    vs.map (fun o =>
      match o with
      | none => false
      | some x => zAbsLE x (popMean (colVals vs)) (popVar (colVals vs)) t)

/-- `check_outliers` (processor.py:380-395), count form: per numeric column,
the number of rows flagged by `|z| > z_thresh`. -/
def check_outliers (d : Dataset) (t : ℚ) : List (String × ℕ) :=
  (numericCols d).map (fun c => (c.name, (zFlagCol c.values t).count true))

/-- The row mask of `remove_outliers_zscore`:
`(z_scores.abs() < z_thresh).all(axis=1)` — a row is kept iff its keep bit
is true in every numeric column. -/
def rowMask (d : Dataset) (t : ℚ) : List Bool :=
  (List.range (nrows d)).map (fun i =>
    (numericCols d).all (fun c => (zKeepCol c.values t).getD i false))

/-- `df[mask]` applied to one column: keep the cells whose mask bit is true. -/
def filterByMask (vs : List Value) (mask : List Bool) : List Value :=
  (vs.zip mask).filterMap (fun p => if p.2 then some p.1 else none)

/-- `remove_outliers_zscore` (processor.py:417-423): the new `self.df` — all
columns filtered by the common row mask. -/
def remove_outliers_zscore (d : Dataset) (t : ℚ) : Dataset :=
  ⟨d.cols.map (fun c => ⟨c.name, c.numeric, filterByMask c.values (rowMask d t)⟩)⟩

/-- Keep bits of `remove_outliers_from_column` (processor.py:425-440):
`z = zscore(df[column].dropna()); mask = abs(z) < z_thresh`; the kept row
labels are `df[column].dropna().index[mask]`, so a row with a missing value
in the column is dropped, while mean and variance come from the
non-missing values only. -/
def fromColKeep (vs : List Value) (t : ℚ) : List Bool :=
  vs.map (fun o =>
    match o with
    | none => false
    | some x => zAbsLT x (popMean (colVals vs)) (popVar (colVals vs)) t)

/-- `remove_outliers_from_column` (processor.py:425-440).  `df[column]` on an
absent column raises a `KeyError`, modelled as `columnNotFound`. -/
def remove_outliers_from_column (d : Dataset) (col : String) (t : ℚ) :
    Except OutlierError Dataset :=
  match getCol d col with
  | none => .error .columnNotFound
  | some c =>
      .ok ⟨d.cols.map (fun c2 =>
        ⟨c2.name, c2.numeric, filterByMask c2.values (fromColKeep c.values t)⟩)⟩

/-- Linear-interpolation value at fractional position `h` of the sorted
sample `s` (the numpy/pandas `interpolation="linear"` rule):
with `i = ⌊h⌋`, the value is `s[i] + (h − i)·(s[i+1] − s[i])`, clamped to
the last element when `i + 1` falls outside the sample. -/
def interpAt (s : List ℚ) (h : ℚ) : ℚ :=
  if (⌊h⌋).toNat + 1 < s.length then
    s.getD (⌊h⌋).toNat 0
      + (h - ((⌊h⌋).toNat : ℚ)) * (s.getD ((⌊h⌋).toNat + 1) 0 - s.getD (⌊h⌋).toNat 0)
  else
    s.getD (s.length - 1) 0

/-- `series.quantile(q)`: drop missing values upstream, sort, interpolate at
position `q·(n−1)`; `none` on an empty sample (pandas returns NaN). -/
def pandasQuantile (xs : List ℚ) (q : ℚ) : Option ℚ :=
  if xs.isEmpty then none
  else some (interpAt (List.insertionSort (· ≤ ·) xs) (q * ((xs.length : ℚ) - 1)))

/-- The quartile data of `remove_outliers_iqr` (processor.py:447-452). -/
structure IQRBounds where
  q1 : ℚ
  q3 : ℚ
  iqr : ℚ
  lb : ℚ
  ub : ℚ
  deriving DecidableEq, Repr

/-- Q1, Q3, IQR and the outlier bounds of `remove_outliers_iqr`:
`lower = q1 − m·iqr`, `upper = q3 + m·iqr` (`none` when the column is
absent or has no non-missing value, where pandas yields NaN bounds). -/
def iqrBounds (d : Dataset) (col : String) (m : ℚ) : Option IQRBounds :=
  match getCol d col with
  | none => none
  | some c =>
      match pandasQuantile (colVals c.values) (1 / 4),
            pandasQuantile (colVals c.values) (3 / 4) with
      | some q1, some q3 =>
          some ⟨q1, q3, q3 - q1, q1 - m * (q3 - q1), q3 + m * (q3 - q1)⟩
      | _, _ => none

/-- The two filter bounds of `remove_outliers_iqr`, straight from the
column's non-missing values; `none` when the quartiles are NaN (no
non-missing value). -/
def iqrLimits (vs : List Value) (m : ℚ) : Option (ℚ × ℚ) :=
  match pandasQuantile (colVals vs) (1 / 4), pandasQuantile (colVals vs) (3 / 4) with
  | some q1, some q3 => some (q1 - m * (q3 - q1), q3 + m * (q3 - q1))
  | _, _ => none

/-- Outlier flags of `remove_outliers_iqr` (processor.py:455-457):
`(df[column] < lower) | (df[column] > upper)`; NaN comparisons are false,
so a missing cell is never flagged, and NaN bounds flag nothing. -/
def iqrFlaggedCol (vs : List Value) (m : ℚ) : List Bool :=
  vs.map (fun o =>
    match o with
    | none => false
    | some x =>
        match iqrLimits vs m with
        | none => false
        | some (lb, ub) => decide (x < lb ∨ ub < x))

/-- Keep bits of `remove_outliers_iqr` (processor.py:462-464):
`(df[column] >= lower) & (df[column] <= upper)`; NaN comparisons are false,
so a missing cell is dropped, and NaN bounds drop every row. -/
def iqrKeepCol (vs : List Value) (m : ℚ) : List Bool :=
  vs.map (fun o =>
    match o with
    | none => false
    | some x =>
        match iqrLimits vs m with
        | none => false
        | some (lb, ub) => decide (lb ≤ x ∧ x ≤ ub))

/-- `remove_outliers_iqr` (processor.py:442-487).  On an absent column the
source prints a message and returns `self` unchanged — no exception. -/
def remove_outliers_iqr (d : Dataset) (col : String) (m : ℚ) :
    Except OutlierError Dataset :=
  match getCol d col with
  | none => .ok d
  | some c =>
      .ok ⟨d.cols.map (fun c2 =>
        ⟨c2.name, c2.numeric, filterByMask c2.values (iqrKeepCol c.values m)⟩)⟩

/-- The stateful wrapper: `DataProcessor` holds `self.df`; the chained
removal methods reassign it and return `self`. -/
structure DataProcessor where
  df : Dataset
  deriving DecidableEq, Repr

/-- `DataProcessor.remove_outliers_zscore`, state-passing form: the returned
processor is `self` after `self.df = self.df[mask]`. -/
def DataProcessor.removeOutliersZscore (p : DataProcessor) (t : ℚ) : DataProcessor :=
  ⟨remove_outliers_zscore p.df t⟩

/-! ### Helper lemmas -/

theorem getD_map_const_false (vs : List Value) (i : ℕ) :
    ((vs.map (fun _ => false)).getD i false) = false := by
  induction vs generalizing i with
  | nil => simp [List.getD]
  | cons a l ih =>
      cases i with
      | zero => rfl
      | succ n => simp [List.getD]

theorem filterByMask_eq_nil (vs : List Value) (m : List Bool)
    (hm : ∀ b ∈ m, b = false) : filterByMask vs m = [] := by
  induction vs generalizing m with
  | nil => simp [filterByMask]
  | cons a l ih =>
      cases m with
      | nil => simp [filterByMask]
      | cons b bs =>
          have hb : b = false := hm b (by simp)
          subst hb
          simpa [filterByMask] using ih bs (fun x hx => hm x (by simp [hx]))

theorem filterByMask_length_le (vs : List Value) (m : List Bool) :
    (filterByMask vs m).length ≤ vs.length := by
  calc (filterByMask vs m).length ≤ (vs.zip m).length := List.length_filterMap_le _ _
    _ ≤ vs.length := by rw [List.length_zip]; exact Nat.min_le_left _ _

theorem filterByMask_length_count (vs : List Value) (m : List Bool)
    (h : vs.length = m.length) : (filterByMask vs m).length = m.count true := by
  induction vs generalizing m with
  | nil =>
      cases m with
      | nil => simp [filterByMask]
      | cons b bs => simp at h
  | cons a l ih =>
      cases m with
      | nil => simp at h
      | cons b bs =>
          have h' : l.length = bs.length := by simpa using h
          cases b with
          | false => simpa [filterByMask, List.count_cons] using ih bs h'
          | true =>
              simp only [filterByMask, List.zip_cons_cons, List.filterMap_cons,
                List.count_cons, if_pos trivial]
              simpa [filterByMask] using ih bs h'

theorem sorted_getD_mono (s : List ℚ) (hs : List.Sorted (· ≤ ·) s) (i j : ℕ)
    (hij : i ≤ j) (hj : j < s.length) : s.getD i 0 ≤ s.getD j 0 := by
  rcases Nat.lt_or_ge i j with hlt | hge
  · have hi : i < s.length := lt_trans hlt hj
    have := (List.pairwise_iff_get.mp hs) ⟨i, hi⟩ ⟨j, hj⟩ hlt
    rwa [List.getD_eq_getElem _ _ hi, List.getD_eq_getElem _ _ hj]
  · have : i = j := le_antisymm hij hge
    subst this
    exact le_refl _

theorem interpAt_mono (s : List ℚ) (hs : List.Sorted (· ≤ ·) s)
    (hne : s ≠ []) (h1 h2 : ℚ) (h0 : 0 ≤ h1) (h12 : h1 ≤ h2)
    (hn : h2 ≤ (s.length : ℚ) - 1) :
    interpAt s h1 ≤ interpAt s h2 := by
  have h0' : 0 ≤ h2 := le_trans h0 h12
  have hfl1 : (0 : ℤ) ≤ ⌊h1⌋ := Int.floor_nonneg.mpr h0
  have hfl2 : (0 : ℤ) ≤ ⌊h2⌋ := Int.floor_nonneg.mpr h0'
  have hlen : 1 ≤ s.length := List.length_pos.mpr hne
  set i1 := (⌊h1⌋).toNat with hi1def
  set i2 := (⌊h2⌋).toNat with hi2def
  have hz1 : ((i1 : ℕ) : ℤ) = ⌊h1⌋ := Int.toNat_of_nonneg hfl1
  have hz2 : ((i2 : ℕ) : ℤ) = ⌊h2⌋ := Int.toNat_of_nonneg hfl2
  have hc1 : (i1 : ℚ) ≤ h1 := by
    have h := Int.floor_le h1
    rw [← hz1] at h
    exact_mod_cast h
  have hc2 : (i2 : ℚ) ≤ h2 := by
    have h := Int.floor_le h2
    rw [← hz2] at h
    exact_mod_cast h
  have hu1 : h1 < (i1 : ℚ) + 1 := by
    have h := Int.lt_floor_add_one h1
    rw [← hz1] at h
    exact_mod_cast h
  have hii : i1 ≤ i2 := Int.toNat_le_toNat (Int.floor_le_floor h12)
  have hi2n : i2 < s.length := by
    have ha : (i2 : ℚ) + 1 ≤ (s.length : ℚ) := by
      have := le_trans hc2 hn
      linarith
    have : i2 + 1 ≤ s.length := by exact_mod_cast ha
    omega
  rw [interpAt, interpAt, ← hi1def, ← hi2def]
  by_cases ha : i1 + 1 < s.length <;> by_cases hb : i2 + 1 < s.length
  · rw [if_pos ha, if_pos hb]
    rcases eq_or_lt_of_le hii with heq | hlt
    · rw [← heq]
      have hd : s.getD i1 0 ≤ s.getD (i1 + 1) 0 :=
        sorted_getD_mono s hs i1 (i1 + 1) (by omega) ha
      have hmul := mul_le_mul_of_nonneg_right
        (sub_le_sub_right h12 ((i1 : ℚ))) (sub_nonneg.mpr hd)
      linarith
    · have hstep : i1 + 1 ≤ i2 := hlt
      have hd1 : s.getD i1 0 ≤ s.getD (i1 + 1) 0 :=
        sorted_getD_mono s hs i1 (i1 + 1) (by omega) ha
      have hd2 : s.getD i2 0 ≤ s.getD (i2 + 1) 0 :=
        sorted_getD_mono s hs i2 (i2 + 1) (by omega) hb
      have hmid : s.getD (i1 + 1) 0 ≤ s.getD i2 0 :=
        sorted_getD_mono s hs (i1 + 1) i2 hstep hi2n
      have hg1 : h1 - (i1 : ℚ) ≤ 1 := by linarith
      have hg2 : 0 ≤ h2 - (i2 : ℚ) := by linarith
      have up1 : s.getD i1 0 + (h1 - (i1 : ℚ)) * (s.getD (i1 + 1) 0 - s.getD i1 0)
          ≤ s.getD (i1 + 1) 0 := by
        nlinarith [mul_nonneg (by linarith : (0 : ℚ) ≤ 1 - (h1 - (i1 : ℚ)))
          (sub_nonneg.mpr hd1)]
      have lo2 : s.getD i2 0
          ≤ s.getD i2 0 + (h2 - (i2 : ℚ)) * (s.getD (i2 + 1) 0 - s.getD i2 0) := by
        nlinarith [mul_nonneg hg2 (sub_nonneg.mpr hd2)]
      linarith
  · rw [if_pos ha, if_neg hb]
    have hd1 : s.getD i1 0 ≤ s.getD (i1 + 1) 0 :=
      sorted_getD_mono s hs i1 (i1 + 1) (by omega) ha
    have hg1 : h1 - (i1 : ℚ) ≤ 1 := by linarith
    have up1 : s.getD i1 0 + (h1 - (i1 : ℚ)) * (s.getD (i1 + 1) 0 - s.getD i1 0)
        ≤ s.getD (i1 + 1) 0 := by
      nlinarith [mul_nonneg (by linarith : (0 : ℚ) ≤ 1 - (h1 - (i1 : ℚ)))
        (sub_nonneg.mpr hd1)]
    have hlast : s.getD (i1 + 1) 0 ≤ s.getD (s.length - 1) 0 :=
      sorted_getD_mono s hs (i1 + 1) (s.length - 1) (by omega) (by omega)
    linarith
  · omega
  · rw [if_neg ha, if_neg hb]

theorem pandasQuantile_mono (xs : List ℚ) (qa qb a b : ℚ)
    (hq0 : 0 ≤ qa) (hqq : qa ≤ qb) (hq1 : qb ≤ 1)
    (ha : pandasQuantile xs qa = some a) (hb : pandasQuantile xs qb = some b) :
    a ≤ b := by
  rw [pandasQuantile] at ha hb
  by_cases hxs : xs.isEmpty
  · rw [if_pos hxs] at ha
    exact absurd ha (by simp)
  · rw [if_neg hxs] at ha hb
    have hne : xs ≠ [] := by
      intro h
      rw [h] at hxs
      exact hxs rfl
    have hlen : 1 ≤ xs.length := List.length_pos.mpr hne
    have hsl : (List.insertionSort (· ≤ ·) xs).length = xs.length :=
      List.length_insertionSort _ _
    have hsne : List.insertionSort (· ≤ ·) xs ≠ [] := by
      intro h
      have h0 := hsl
      rw [h] at h0
      simp at h0
      omega
    have hnn : (0 : ℚ) ≤ (xs.length : ℚ) - 1 := by
      have : (1 : ℚ) ≤ (xs.length : ℚ) := by exact_mod_cast hlen
      linarith
    have hmono := interpAt_mono (List.insertionSort (· ≤ ·) xs)
      (List.sorted_insertionSort _ xs) hsne
      (qa * ((xs.length : ℚ) - 1)) (qb * ((xs.length : ℚ) - 1))
      (mul_nonneg hq0 hnn)
      (mul_le_mul_of_nonneg_right hqq hnn)
      (by
        rw [hsl]
        nlinarith)
    have ha' : a = interpAt (List.insertionSort (· ≤ ·) xs) (qa * ((xs.length : ℚ) - 1)) :=
      (Option.some_inj.mp ha).symm
    have hb' : b = interpAt (List.insertionSort (· ≤ ·) xs) (qb * ((xs.length : ℚ) - 1)) :=
      (Option.some_inj.mp hb).symm
    rw [ha', hb']
    exact hmono

theorem getD_none_lt (vs : List Value) (i : ℕ) (h : vs.getD i (some 0) = none) :
    i < vs.length := by
  by_contra hge
  push_neg at hge
  rw [List.getD_eq_default _ _ hge] at h
  exact Option.noConfusion h

theorem getD_map_of_lt (vs : List Value) (f : Value → Bool) (i : ℕ) (dflt : Bool)
    (hlt : i < vs.length) :
    (vs.map f).getD i dflt = f (vs.getD i (some 0)) := by
  rw [List.getD_eq_getElem _ _ (by simpa using hlt), List.getD_eq_getElem _ _ hlt,
    List.getElem_map]

/-! ### Claims -/

/-- Spec example dataset of C7: single numeric column `[1,2,3,4,5,100]`. -/
def dsC7 : Dataset :=
  ⟨[⟨"x", true, [some 1, some 2, some 3, some 4, some 5, some 100]⟩]⟩

/-- C7 (confirmed): on the column `[1,2,3,4,5,100]` with IQR multiplier 1.5,
the code computes Q1 = 2.25 and Q3 = 4.75 by linear interpolation,
iqr = 2.5, lowerBound = −1.5, upperBound = 8.5, and flags exactly the row
holding 100. -/
theorem C7_iqr_example :
    iqrBounds dsC7 "x" (3 / 2) = some ⟨9/4, 19/4, 5/2, -3/2, 17/2⟩ ∧
    iqrFlaggedCol [some 1, some 2, some 3, some 4, some 5, some 100] (3 / 2)
      = [false, false, false, false, false, true] := by
  have hg : getCol dsC7 "x"
      = some ⟨"x", true, [some 1, some 2, some 3, some 4, some 5, some 100]⟩ := rfl
  have hf1 : ⌊(5 : ℚ) / 4⌋ = 1 := by rw [Int.floor_eq_iff]; norm_num
  have hf3 : ⌊(15 : ℚ) / 4⌋ = 3 := by rw [Int.floor_eq_iff]; norm_num
  have ht1 : (1 : ℤ).toNat = 1 := rfl
  have ht3 : (3 : ℤ).toNat = 3 := rfl
  constructor
  · norm_num +decide [iqrBounds, hg, pandasQuantile, interpAt, colVals, List.reduceOption,
      List.filterMap, List.insertionSort, List.orderedInsert, hf1, hf3, ht1, ht3]
  · norm_num +decide [iqrFlaggedCol, iqrLimits, pandasQuantile, interpAt, colVals,
      List.reduceOption, List.filterMap, List.insertionSort, List.orderedInsert,
      hf1, hf3, ht1, ht3]

/-- C8 (confirmed): whenever the IQR bounds are defined (column present with
at least one non-missing value) and the multiplier is nonnegative,
`lowerBound ≤ Q1 ≤ Q3 ≤ upperBound`. -/
theorem C8_iqr_bounds_ordered (d : Dataset) (col : String) (m : ℚ) (b : IQRBounds)
    (hm : 0 ≤ m) (hb : iqrBounds d col m = some b) :
    b.lb ≤ b.q1 ∧ b.q1 ≤ b.q3 ∧ b.q3 ≤ b.ub := by
  rw [iqrBounds] at hb
  split at hb
  next => exact absurd hb (by simp)
  next c hgc =>
    split at hb
    next q1 q3 hq1 hq3 =>
      simp only [Option.some.injEq] at hb
      have hq13 : q1 ≤ q3 :=
        pandasQuantile_mono (colVals c.values) (1 / 4) (3 / 4) q1 q3
          (by norm_num) (by norm_num) (by norm_num) hq1 hq3
      have hprod : 0 ≤ m * (q3 - q1) := mul_nonneg hm (sub_nonneg.mpr hq13)
      subst hb
      refine ⟨?_, hq13, ?_⟩
      · dsimp only
        linarith
      · dsimp only
        linarith
    next => exact absurd hb (by simp)

/-- Concrete dataset for the C8 witness: numeric column `[0,1,2,3]`. -/
def dsC8 : Dataset := ⟨[⟨"x", true, [some 0, some 1, some 2, some 3]⟩]⟩

/-- Witness for C8 at the column `[0,1,2,3]` and multiplier 1.5:
the bounds are −3/2 ≤ 3/4 ≤ 9/4 ≤ 9/2. -/
theorem C8_witness :
    (-3/2 : ℚ) ≤ 3/4 ∧ (3/4 : ℚ) ≤ 9/4 ∧ (9/4 : ℚ) ≤ 9/2 := by
  have hm : (0 : ℚ) ≤ 3 / 2 := by norm_num
  have hb : iqrBounds dsC8 "x" (3 / 2) = some ⟨3/4, 9/4, 3/2, -3/2, 9/2⟩ := by
    have hg : getCol dsC8 "x" = some ⟨"x", true, [some 0, some 1, some 2, some 3]⟩ := rfl
    have hf1 : ⌊(3 : ℚ) / 4⌋ = 0 := by rw [Int.floor_eq_iff]; norm_num
    have hf3 : ⌊(9 : ℚ) / 4⌋ = 2 := by rw [Int.floor_eq_iff]; norm_num
    have ht0 : (0 : ℤ).toNat = 0 := rfl
    have ht2 : (2 : ℤ).toNat = 2 := rfl
    norm_num +decide [iqrBounds, hg, pandasQuantile, interpAt, colVals, List.reduceOption,
      List.filterMap, List.insertionSort, List.orderedInsert, hf1, hf3, ht0, ht2]
  exact C8_iqr_bounds_ordered dsC8 "x" (3 / 2) ⟨3/4, 9/4, 3/2, -3/2, 9/2⟩ hm hb

/-- C9 (confirmed): if any numeric column has a missing value, then for every
threshold, `remove_outliers_zscore` returns the dataset with every row
removed: the z-scores of that column are all NaN, the keep condition
`|z| < threshold` is false there for every row, and the row mask requires
it to hold in every numeric column. -/
theorem C9_missing_value_empties_dataset (d : Dataset) (t : ℚ) (c : Column)
    (hc : c ∈ numericCols d) (hm : colHasMissing c.values = true) :
    remove_outliers_zscore d t = ⟨d.cols.map (fun c2 => ⟨c2.name, c2.numeric, []⟩)⟩ := by
  have hmask : ∀ b ∈ rowMask d t, b = false := by
    intro b hbm
    rw [rowMask] at hbm
    rcases List.mem_map.mp hbm with ⟨i, _, hib⟩
    have hfc : (zKeepCol c.values t).getD i false = false := by
      rw [zKeepCol, if_pos hm]
      exact getD_map_const_false _ _
    rw [← hib]
    exact List.all_eq_false.mpr ⟨c, hc, by simpa using hfc⟩
  rw [remove_outliers_zscore]
  have hcols : ∀ c2 ∈ d.cols,
      (⟨c2.name, c2.numeric, filterByMask c2.values (rowMask d t)⟩ : Column)
        = ⟨c2.name, c2.numeric, []⟩ := by
    intro c2 _
    rw [filterByMask_eq_nil _ _ hmask]
  exact congrArg Dataset.mk (List.map_congr_left hcols)

/-- Concrete dataset for the C9 witness: numeric column `x` has a missing
value in row 1; numeric column `y` is complete. -/
def dsC9 : Dataset :=
  ⟨[⟨"x", true, [some 1, none, some 3]⟩, ⟨"y", true, [some 4, some 5, some 6]⟩]⟩

/-- Witness for C9: on `dsC9` even threshold 3 leaves no row. -/
theorem C9_witness :
    remove_outliers_zscore dsC9 3
      = ⟨dsC9.cols.map (fun c2 => ⟨c2.name, c2.numeric, []⟩)⟩ :=
  C9_missing_value_empties_dataset dsC9 3 ⟨"x", true, [some 1, none, some 3]⟩
    (by decide) (by decide)

/-- C10 (confirmed): with the target column present, a row whose value in it
is missing is dropped by `remove_outliers_iqr` — its keep bit
`value ≥ lower ∧ value ≤ upper` is false — even though its outlier flag
`value < lower ∨ value > upper` is also false, and the result is exactly the
dataset filtered by that keep mask. -/
theorem C10_iqr_drops_missing (d : Dataset) (col : String) (m : ℚ) (c : Column)
    (i : ℕ) (hc : getCol d col = some c) (hmiss : c.values.getD i (some 0) = none) :
    (iqrKeepCol c.values m).getD i true = false ∧
    (iqrFlaggedCol c.values m).getD i false = false ∧
    remove_outliers_iqr d col m
      = .ok ⟨d.cols.map (fun c2 =>
          ⟨c2.name, c2.numeric, filterByMask c2.values (iqrKeepCol c.values m)⟩)⟩ := by
  have hlt : i < c.values.length := getD_none_lt _ _ hmiss
  refine ⟨?_, ?_, ?_⟩
  · rw [iqrKeepCol, getD_map_of_lt _ _ _ _ hlt, hmiss]
  · rw [iqrFlaggedCol, getD_map_of_lt _ _ _ _ hlt, hmiss]
  · rw [remove_outliers_iqr, hc]

/-- Concrete dataset for the C10 witness: column `x` is `[1, 2, missing, 4]`. -/
def dsC10 : Dataset := ⟨[⟨"x", true, [some 1, some 2, none, some 4]⟩]⟩

/-- Witness for C10: row 2 of `dsC10.x` is missing, its keep bit is false,
its outlier flag is false, and the removal filters by the keep mask. -/
theorem C10_witness :
    (iqrKeepCol [some 1, some 2, none, some 4] (3/2)).getD 2 true = false ∧
    (iqrFlaggedCol [some 1, some 2, none, some 4] (3/2)).getD 2 false = false ∧
    remove_outliers_iqr dsC10 "x" (3/2)
      = .ok ⟨dsC10.cols.map (fun c2 =>
          ⟨c2.name, c2.numeric,
            filterByMask c2.values (iqrKeepCol [some 1, some 2, none, some 4] (3/2))⟩)⟩ :=
  C10_iqr_drops_missing dsC10 "x" (3/2) ⟨"x", true, [some 1, some 2, none, some 4]⟩ 2
    (by decide) (by decide)

/-- Dataset for C1: single numeric column `[0, 2]`.  At threshold 1 both
rows have z-score exactly ±1. -/
def dsC1 : Dataset := ⟨[⟨"x", true, [some 0, some 2]⟩]⟩

/-- C1 counterexample: on the column `[0, 2]` with threshold 1, both rows
have `|z| ≤ 1` (the spec's "within threshold"), yet the keep mask of
`remove_outliers_zscore` — whose condition is the strict `|z| < z_thresh` —
is false for both, and the removal returns an empty dataset, removing rows
that were within threshold. -/
theorem C1_counterexample :
    zWithinCol [some 0, some 2] 1 = [true, true] ∧
    rowMask dsC1 1 = [false, false] ∧
    nrows (remove_outliers_zscore dsC1 1) = 0 := by
  refine ⟨?_, ?_, ?_⟩
  · norm_num +decide [zWithinCol, colHasMissing, colVals, popMean, popVar, zAbsLE,
      List.reduceOption, List.filterMap]
  · norm_num +decide [dsC1, rowMask, nrows, numericCols, zKeepCol, colHasMissing, colVals,
      popMean, popVar, zAbsLT, List.reduceOption, List.filterMap, List.range_succ]
  · norm_num +decide [dsC1, remove_outliers_zscore, nrows, rowMask, numericCols, zKeepCol,
      colHasMissing, colVals, popMean, popVar, zAbsLT, filterByMask, List.reduceOption,
      List.filterMap, List.zip, List.zipWith, List.range_succ]

/-- C1 (corrected): `remove_outliers_zscore` never increases the row count,
and a row whose `|z|` is strictly below the threshold in every numeric
column is always retained by the row mask.  (The strict inequality is the
amendment: the keep condition is `|z| < z_thresh`, so a row with `|z|`
exactly equal to the threshold is removed.) -/
theorem C1_row_count_and_strict_retention (d : Dataset) (t : ℚ) :
    nrows (remove_outliers_zscore d t) ≤ nrows d ∧
    ∀ i : ℕ, i < nrows d →
      (∀ c ∈ numericCols d, (zKeepCol c.values t).getD i false = true) →
      (rowMask d t).getD i false = true := by
  constructor
  · cases hd : d.cols with
    | nil =>
        rw [remove_outliers_zscore, hd]
        simp [nrows]
    | cons c1 rest =>
        rw [remove_outliers_zscore, hd]
        show (filterByMask c1.values (rowMask d t)).length ≤ nrows d
        calc (filterByMask c1.values (rowMask d t)).length
            ≤ c1.values.length := filterByMask_length_le _ _
          _ = nrows d := by simp [nrows, hd]
  · intro i hi hall
    have h1 : (rowMask d t).getD i false
        = (numericCols d).all (fun c => (zKeepCol c.values t).getD i false) := by
      rw [rowMask, List.getD_eq_getElem _ _ (by simpa using hi), List.getElem_map,
        List.getElem_range]
    rw [h1]
    exact List.all_eq_true.mpr hall

/-- Witness for C1 at `dsC1` and threshold 2: row 0 has `|z| < 2` in the
only numeric column, so its mask bit is true, and the row count does not
increase. -/
theorem C1_witness :
    nrows (remove_outliers_zscore dsC1 2) ≤ nrows dsC1 ∧
    (rowMask dsC1 2).getD 0 false = true := by
  have hz : zKeepCol [some 0, some 2] 2 = [true, true] := by
    norm_num +decide [zKeepCol, colHasMissing, colVals, popMean, popVar, zAbsLT,
      List.reduceOption, List.filterMap]
  refine ⟨(C1_row_count_and_strict_retention dsC1 2).1,
    (C1_row_count_and_strict_retention dsC1 2).2 0 (by decide) ?_⟩
  intro c hc
  have hcc : c = ⟨"x", true, [some 0, some 2]⟩ := by
    have hn : numericCols dsC1 = [⟨"x", true, [some 0, some 2]⟩] := rfl
    rw [hn] at hc
    simpa using hc
  subst hcc
  simp [hz]

/-- Dataset of the spec's C2 example: column `[10, 12, 11, 13, 1000]`. -/
def dsC2 : Dataset := ⟨[⟨"x", true, [some 10, some 12, some 11, some 13, some 1000]⟩]⟩

/-- C2 counterexample: with threshold 2, `check_outliers` flags NO row of
`[10, 12, 11, 13, 1000]` — not even the 1000 row.  With the population
standard deviation, `(1000 − μ)² = 15634116/25` while
`2²·σ² = 15634216/25`, so `|z(1000)| < 2` (≈ 1.999994) and the strict test
`|z| > 2` fails for every row. -/
theorem C2_counterexample :
    zFlagCol [some 10, some 12, some 11, some 13, some 1000] 2
      = [false, false, false, false, false] := by
  norm_num +decide [zFlagCol, colHasMissing, colVals, popMean, popVar, zAbsGT,
    List.reduceOption, List.filterMap]

/-- C2 (corrected): on `[10, 12, 11, 13, 1000]` with threshold 2 the code
reports zero outliers in the column (the spec's claim that the 1000 row is
flagged is false: its z-score is just below 2). -/
theorem C2_flags_no_row : check_outliers dsC2 2 = [("x", 0)] := by
  norm_num +decide [dsC2, check_outliers, numericCols, zFlagCol, colHasMissing, colVals,
    popMean, popVar, zAbsGT, List.count_cons, List.count_nil, List.reduceOption,
    List.filterMap]

/-- C3 counterexample: `remove_outliers_from_column` on the column
`[1, 2, 3, missing]` (threshold 2) drops the row whose value is missing,
although the claim says a missing row is never flagged; the three
non-missing rows are all kept (their statistics use only `[1, 2, 3]`). -/
theorem C3_counterexample :
    remove_outliers_from_column ⟨[⟨"x", true, [some 1, some 2, some 3, none]⟩]⟩ "x" 2
      = .ok ⟨[⟨"x", true, [some 1, some 2, some 3]⟩]⟩ := by
  have hg : getCol ⟨[⟨"x", true, [some 1, some 2, some 3, none]⟩]⟩ "x"
      = some ⟨"x", true, [some 1, some 2, some 3, none]⟩ := rfl
  norm_num +decide [remove_outliers_from_column, hg, fromColKeep, colVals, popMean,
    popVar, zAbsLT, filterByMask, List.reduceOption, List.filterMap, List.zip,
    List.zipWith]

/-- C3 (corrected): in `remove_outliers_from_column` the statistics do come
from the non-missing values only (definitionally, via `dropna`), but a row
whose value in the column is missing is DROPPED, not retained; and in
`check_outliers` a missing value is not excluded from the statistic — it
makes the whole column's z-scores NaN, so no row of that column is flagged
at all. -/
theorem C3_missing_row_dropped_and_flags_dead (vs : List Value) (t : ℚ) (i : ℕ)
    (hmiss : vs.getD i (some 0) = none) :
    (fromColKeep vs t).getD i true = false ∧
    zFlagCol vs t = vs.map (fun _ => false) := by
  have hlt : i < vs.length := getD_none_lt _ _ hmiss
  have hmem : colHasMissing vs = true := by
    rw [List.getD_eq_getElem _ _ hlt] at hmiss
    exact List.any_eq_true.mpr ⟨none, hmiss ▸ List.getElem_mem _, rfl⟩
  constructor
  · rw [fromColKeep, getD_map_of_lt _ _ _ _ hlt, hmiss]
  · rw [zFlagCol, if_pos hmem]

/-- Witness for C3 at the column `[1, missing]`, threshold 2, row 1. -/
theorem C3_witness :
    (fromColKeep [some 1, none] 2).getD 1 true = false ∧
    zFlagCol [some 1, none] 2 = [some 1, none].map (fun _ => false) :=
  C3_missing_row_dropped_and_flags_dead [some 1, none] 2 1 (by decide)

/-- Dataset for C4: one column named `x`; the requested column `y` is
absent. -/
def dsC4 : Dataset := ⟨[⟨"x", true, [some 1]⟩]⟩

/-- C4 counterexample: `remove_outliers_iqr` on the absent column `y` does
NOT fail — it returns the dataset unchanged as a normal result (the source
prints a message and `return self`), so no `ColumnNotFound` error is
propagated to the caller. -/
theorem C4_counterexample :
    remove_outliers_iqr dsC4 "y" (3/2) = .ok dsC4 := rfl

/-- C4 (corrected): on a column absent from the dataset,
`remove_outliers_from_column` fails with a column-not-found error (the
`KeyError` of `df[column]`) propagated to the caller and the dataset is
untouched, while `remove_outliers_iqr` does not fail at all: it returns the
dataset unchanged. -/
theorem C4_absent_column (d : Dataset) (col : String) (t m : ℚ)
    (h : getCol d col = none) :
    remove_outliers_from_column d col t = .error .columnNotFound ∧
    remove_outliers_iqr d col m = .ok d := by
  constructor
  · rw [remove_outliers_from_column, h]
  · rw [remove_outliers_iqr, h]

/-- Witness for C4: `y` is absent from `dsC4`. -/
theorem C4_witness :
    remove_outliers_from_column dsC4 "y" 2 = .error .columnNotFound ∧
    remove_outliers_iqr dsC4 "y" (3/2) = .ok dsC4 :=
  C4_absent_column dsC4 "y" 2 (3/2) (by decide)

/-- Dataset for C5: column `[0,0,0,0,5]`; at threshold 2 the value 5 has
z-score exactly 2 and is removed. -/
def dsC5 : Dataset := ⟨[⟨"x", true, [some 0, some 0, some 0, some 0, some 5]⟩]⟩

/-- Processor state for the C5 counterexample. -/
def dpC5 : DataProcessor := ⟨dsC5⟩

/-- C5 counterexample: `remove_outliers_zscore` is not side-effect-free with
respect to the processor's dataset — after the call the stored dataset
differs from the input (`self.df` has been reassigned to the filtered
frame, here dropping the row with value 5). -/
theorem C5_counterexample : dpC5.removeOutliersZscore 2 ≠ dpC5 := by
  have h : remove_outliers_zscore dsC5 2
      = ⟨[⟨"x", true, [some 0, some 0, some 0, some 0]⟩]⟩ := by
    norm_num +decide [dsC5, remove_outliers_zscore, nrows, rowMask, numericCols, zKeepCol,
      colHasMissing, colVals, popMean, popVar, zAbsLT, filterByMask, List.reduceOption,
      List.filterMap, List.zip, List.zipWith, List.range_succ]
  show (⟨remove_outliers_zscore dsC5 2⟩ : DataProcessor) ≠ ⟨dsC5⟩
  rw [h]
  intro hEq
  simp [dsC5] at hEq

/-- C5 (corrected): the removal is a mutation of the processor's dataset,
but it is never a partial one: `remove_outliers_zscore` preserves every
column's name and dtype and filters all columns by one common row mask, so
the all-columns-equal-length invariant is preserved. -/
theorem C5_total_snapshot (d : Dataset) (t : ℚ) (hwf : Wellformed d) :
    (remove_outliers_zscore d t).cols.map (fun c => (c.name, c.numeric))
      = d.cols.map (fun c => (c.name, c.numeric)) ∧
    Wellformed (remove_outliers_zscore d t) := by
  constructor
  · rw [remove_outliers_zscore]
    simp [List.map_map, Function.comp]
  · have hml : (rowMask d t).length = nrows d := by
      rw [rowMask]
      simp
    have hflen : ∀ c0 ∈ d.cols,
        (filterByMask c0.values (rowMask d t)).length = (rowMask d t).count true := by
      intro c0 h0
      exact filterByMask_length_count _ _ (by rw [hwf c0 h0, hml])
    intro c2 hc2
    rcases List.mem_map.mp hc2 with ⟨c0, hc0, rfl⟩
    show (filterByMask c0.values (rowMask d t)).length = nrows (remove_outliers_zscore d t)
    rw [hflen c0 hc0]
    cases hd : d.cols with
    | nil => exact absurd hc0 (by simp [hd])
    | cons c1 rest =>
        have h1 : c1 ∈ d.cols := by
          rw [hd]
          exact List.mem_cons_self _ _
        have h2 : nrows (remove_outliers_zscore d t)
            = (filterByMask c1.values (rowMask d t)).length := by
          simp [remove_outliers_zscore, nrows, hd]
        rw [h2, hflen c1 h1]

/-- Witness for C5 on the well-formed `dsC5` at threshold 2. -/
theorem C5_witness :
    (remove_outliers_zscore dsC5 2).cols.map (fun c => (c.name, c.numeric))
      = dsC5.cols.map (fun c => (c.name, c.numeric)) ∧
    Wellformed (remove_outliers_zscore dsC5 2) :=
  C5_total_snapshot dsC5 2 (by decide)

/-- C6 (corrected): on a column of equal values (population variance 0) no
division-by-zero error is raised, but z is NaN, not 0: `check_outliers`
flags no row of the column, while the keep bits `|z| < z_thresh` used by
`remove_outliers_zscore` and `remove_outliers_from_column` are also all
false, so those removals drop every row of the column. -/
theorem C6_constant_column (vs : List Value) (t : ℚ)
    (hv : popVar (colVals vs) = 0) :
    zFlagCol vs t = vs.map (fun _ => false) ∧
    zKeepCol vs t = vs.map (fun _ => false) ∧
    fromColKeep vs t = vs.map (fun _ => false) := by
  refine ⟨?_, ?_, ?_⟩
  · rw [zFlagCol]
    by_cases hm : colHasMissing vs = true
    · rw [if_pos hm]
    · rw [if_neg hm]
      refine List.map_congr_left ?_
      intro o _
      cases o with
      | none => rfl
      | some x => simp [zAbsGT, hv]
  · rw [zKeepCol]
    by_cases hm : colHasMissing vs = true
    · rw [if_pos hm]
    · rw [if_neg hm]
      refine List.map_congr_left ?_
      intro o _
      cases o with
      | none => rfl
      | some x => simp [zAbsLT, hv]
  · rw [fromColKeep]
    refine List.map_congr_left ?_
    intro o _
    cases o with
    | none => rfl
    | some x => simp [zAbsLT, hv]

/-- Dataset for the C6 counterexample: constant column `[5, 5, 5]`. -/
def dsC6 : Dataset := ⟨[⟨"x", true, [some 5, some 5, some 5]⟩]⟩

/-- C6 counterexample: the claim says a zero-variance column flags no row,
but whole-row removal on a constant column removes all three rows (z is
NaN, not 0, and `|NaN| < 2` is false), leaving the dataset empty. -/
theorem C6_counterexample :
    nrows dsC6 = 3 ∧ nrows (remove_outliers_zscore dsC6 2) = 0 := by
  refine ⟨rfl, ?_⟩
  norm_num +decide [dsC6, remove_outliers_zscore, nrows, rowMask, numericCols, zKeepCol,
    colHasMissing, colVals, popMean, popVar, zAbsLT, filterByMask, List.reduceOption,
    List.filterMap, List.zip, List.zipWith, List.range_succ]

/-- Witness for C6 at the constant column `[7, 7]`, threshold 3. -/
theorem C6_witness :
    zFlagCol [some 7, some 7] 3 = [some 7, some 7].map (fun _ => false) ∧
    zKeepCol [some 7, some 7] 3 = [some 7, some 7].map (fun _ => false) ∧
    fromColKeep [some 7, some 7] 3 = [some 7, some 7].map (fun _ => false) :=
  C6_constant_column [some 7, some 7] 3
    (by norm_num [popVar, popMean, colVals, List.reduceOption, List.filterMap])
